import Mathlib

/-!
# Verification of the `findmyfrens` scraper (`src/bin/scrape.rs`)

A shallow embedding of the two-level link-extraction and snapshot-mirroring
walk.  HTTP fetching, HTML parsing and URL joining are performed by external
libraries in the source (`reqwest`, `scraper`, `url`); they are modelled as
components of an environment `Env`.  Filesystem and network side effects are
recorded as an explicit trace of `Eff` events, in the order the source
performs them.
-/

set_option autoImplicit false
set_option linter.unusedVariables false

deriving instance DecidableEq for Except

namespace Scrape

/-- Rust `str::split` on a single `char` separator, on the character list of a
string: splitting an empty list yields one empty piece, and every separator
starts a new piece.  This matches `"a/b".split('/') = ["a","b"]`,
`"".split('/') = [""]`, `"/".split('/') = ["", ""]`. -/
def splitChars (c : Char) : List Char → List (List Char)
  | [] => [[]]
  | ch :: rest =>
    let r := splitChars c rest
    if ch = c then [] :: r
    else
      match r with
      | [] => [[ch]]
      | h :: t => (ch :: h) :: t

/-- Rust `s.split(c)` collected to a list of strings. -/
def rustSplit (c : Char) (s : String) : List String :=
  (splitChars c s.data).map (fun l => String.mk l)

/-- Rust `s.trim_end_matches(c)` for a `char` pattern: remove every trailing
occurrence of `c`. -/
def rustTrimEnd (c : Char) (s : String) : String :=
  String.mk ((s.data.reverse.dropWhile (fun x => x = c)).reverse)

/-- Rust `str::trim`: remove leading and trailing whitespace. -/
def rustTrim (s : String) : String :=
  String.mk (((s.data.dropWhile Char.isWhitespace).reverse.dropWhile
    Char.isWhitespace).reverse)

/-- The DOM text content of a fragment of inner HTML markup: the markup with
every `<...>` tag removed (what `scraper`'s `.text()` would concatenate for a
flat element).  Used to state the spec-side notion of a heading's
\"trimmed text content\". -/
def textContentAux : Bool → List Char → List Char
  | _, [] => []
  | false, ch :: rest =>
    if ch = '<' then textContentAux true rest else ch :: textContentAux false rest
  | true, ch :: rest =>
    if ch = '>' then textContentAux false rest else textContentAux true rest

/-- DOM text content of an inner-HTML string (tags stripped). -/
def textContent (s : String) : String :=
  String.mk (textContentAux false s.data)

/-- The `Error` enum of `scrape.rs`. -/
inductive Error where
  | LogInit
  | Io
  | HttpClient
  | Url
  | Csv
  | InvalidHtml (msg : String)
  deriving DecidableEq

/-- An `<a>` element as the source queries it: its optional `href` attribute
and its `inner_html()`. -/
structure AElem where
  href : Option String
  innerHtml : String
  deriving DecidableEq

/-- A `<link rel="stylesheet">` element: its optional `href` attribute. -/
structure LinkElem where
  href : Option String
  deriving DecidableEq

/-- An `<img>` element: its optional `src` attribute. -/
structure ImgElem where
  src : Option String
  deriving DecidableEq

/-- An `<h1>` element: its `inner_html()`. -/
structure H1Elem where
  innerHtml : String
  deriving DecidableEq

/-- A parsed HTML document, presented through the six fixed selector queries
of `scrape.rs` (each in document order):
`body > a`, `body > main > a`, `head > link[rel='stylesheet']`,
`body > header > img`, `body > main > img`, `body > main > h1`. -/
structure Html where
  bodyAnchors : List AElem
  mainAnchors : List AElem
  stylesheetLinks : List LinkElem
  bannerImgs : List ImgElem
  profileImgs : List ImgElem
  mainH1s : List H1Elem
  deriving DecidableEq

/-- `BANNER_IMG_SEL` (`body > header > img`) as a selection function. -/
def BANNER_IMG_SEL (doc : Html) : List ImgElem := doc.bannerImgs

/-- `PROFILE_IMG_SEL` (`body > main > img`) as a selection function. -/
def PROFILE_IMG_SEL (doc : Html) : List ImgElem := doc.profileImgs

/-- One observable side effect of the run, in the order performed:
a page GET (`reqwest::get` in `get_html`), a directory creation
(`create_dir_all`), a file write (`std::fs::write`), or an asset GET
(`reqwest::get` in `save_file`).  Paths are lists of components
(`Path::join` is list append). -/
inductive Eff where
  | fetchPage (url : String)
  | createDir (path : List String)
  | writeFile (path : List String) (contents : String)
  | fetchAsset (url : String)
  deriving DecidableEq

/-- The external collaborators: `fetchText` is `reqwest::get(url)` + `.text()`
for a page (`none` models a transport error, surfaced as `HttpClient`);
`fetchBytes` the same for an asset body in `save_file`; `parseDoc` is
`Html::parse_document` (total: the parser never fails); `join` is
`Url::join` (`none` models `url::ParseError`, surfaced as `Url`). -/
structure Env where
  fetchText : String → Option String
  fetchBytes : String → Option String
  parseDoc : String → Html
  join : String → String → Option String

/-- `parse_a`: read the element's `href` attribute (error `InvalidHtml` when
absent) and pair it with the element's `inner_html()`. -/
def parse_a (element : AElem) : Except Error (String × String) :=
  match element.href with
  | none => .error (.InvalidHtml "Invalid href for link")
  | some href => .ok (href, element.innerHtml)

/-- Rust's `Iterator::collect::<Result<Vec<_>, _>>()`: succeed with the list of
values, or stop at the first error. -/
def collectResults {α : Type} : List (Except Error α) → Except Error (List α)
  | [] => .ok []
  | .error e :: _ => .error e
  | .ok a :: rest => (collectResults rest).map (fun l => a :: l)

/-- The `screen_name` computation of `main`:
`raw_url.trim_end_matches('/').split('/').last().ok_or(InvalidHtml)`. -/
def screen_name_of (raw_url : String) : Except Error String :=
  match (rustSplit '/' (rustTrimEnd '/' raw_url)).getLast? with
  | none => .error (.InvalidHtml "Missing screen name")
  | some s => .ok s

/-- The final `/`-delimited segment of a raw attribute value (`split('/')`
followed by `last()`), defaulting to `""`; used to characterise filename and
screen-name extraction. -/
def lastSegment (s : String) : String :=
  ((rustSplit '/' s).getLast?).getD ""

/-- `get_stylesheet`: for the first `head > link[rel='stylesheet']` match (if
any), read `href` (`InvalidHtml` if missing), take the last `/`-segment of the
raw value as filename (`InvalidHtml` if `last()` gives nothing), and resolve
the raw value against `base_url`. -/
def get_stylesheet (env : Env) (doc : Html) (base_url : String) :
    Except Error (Option (String × String)) :=
  match doc.stylesheetLinks.head? with
  | none => .ok none
  | some link =>
    match link.href with
    | none => .error (.InvalidHtml "Missing href for stylesheet link")
    | some href =>
      match (rustSplit '/' href).getLast? with
      | none => .error (.InvalidHtml "Invalid href for stylesheet link")
      | some filename =>
        match env.join base_url href with
        | none => .error .Url
        | some u => .ok (some (u, filename))

/-- `get_img`: same as `get_stylesheet` but for the first match of an image
selector and its `src` attribute. -/
def get_img (env : Env) (doc : Html) (base_url : String)
    (selector : Html → List ImgElem) :
    Except Error (Option (String × String)) :=
  match (selector doc).head? with
  | none => .ok none
  | some img =>
    match img.src with
    | none => .error (.InvalidHtml "Missing src for img")
    | some src =>
      match (rustSplit '/' src).getLast? with
      | none => .error (.InvalidHtml "Invalid src for img")
      | some filename =>
        match env.join base_url src with
        | none => .error .Url
        | some u => .ok (some (u, filename))

/-- `save_file`: GET the asset (`HttpClient` on transport error) then write its
bytes to `path`.  Returns the effect trace performed and the outcome. -/
def save_file (env : Env) (url : String) (path : List String) :
    List Eff × Except Error Unit :=
  match env.fetchBytes url with
  | none => ([.fetchAsset url], .error .HttpClient)
  | some bytes => ([.fetchAsset url, .writeFile path bytes], .ok ())

/-- The `if let Some((url, filename)) = ...? { save_file(url, dir.join(filename)).await? }`
pattern of `get_html`: nothing to do when the asset is absent. -/
def saveOpt (env : Env) (dir : List String) :
    Option (String × String) → List Eff × Except Error Unit
  | none => ([], .ok ())
  | some (u, f) => save_file env u (dir ++ [f])

/-- Result of `get_html`: its effect trace and its outcome. -/
structure HtmlOut where
  trace : List Eff
  result : Except Error Html
  deriving DecidableEq

/-- Sequencing of effectful fallible steps: exactly Rust's `?` operator on a
step that has already produced the trace `m.1` — on error the trace so far is
kept and the continuation never runs; on success the continuation's trace is
appended. -/
def effBind {α β : Type} (m : List Eff × Except Error α)
    (f : α → List Eff × Except Error β) : List Eff × Except Error β :=
  match m with
  | (t, .error e) => (t, .error e)
  | (t, .ok a) =>
    let r := f a
    (t ++ r.1, r.2)

/-- A pure fallible step (`?` on a non-effectful `Result`). -/
def liftExcept {α : Type} (x : Except Error α) : List Eff × Except Error α :=
  ([], x)

/-- The asset-mirroring part of `get_html`'s snapshot branch: locate then
download the stylesheet, the banner image, and the profile image, in that
fixed sequential order, stopping at the first failure. -/
def snapshotAssets (env : Env) (doc : Html) (url : String) (dir : List String) :
    List Eff × Except Error Unit :=
  effBind (liftExcept (get_stylesheet env doc url)) (fun styOpt =>
    effBind (saveOpt env dir styOpt) (fun _ =>
      effBind (liftExcept (get_img env doc url BANNER_IMG_SEL)) (fun bOpt =>
        effBind (saveOpt env dir bOpt) (fun _ =>
          effBind (liftExcept (get_img env doc url PROFILE_IMG_SEL)) (fun pOpt =>
            saveOpt env dir pOpt)))))

/-- `get_html`: GET the page, parse it, and when a snapshot directory is given,
create it, write the raw text verbatim to `index.html`, then run
`snapshotAssets`, aborting with the underlying error on the first failure. -/
def get_html (env : Env) (url : String) (snapshot_dir : Option (List String)) :
    HtmlOut :=
  match env.fetchText url with
  | none => ⟨[.fetchPage url], .error .HttpClient⟩
  | some text =>
    let doc := env.parseDoc text
    match snapshot_dir with
    | none => ⟨[.fetchPage url], .ok doc⟩
    | some dir =>
      let m := snapshotAssets env doc url dir
      ⟨[.fetchPage url, .createDir dir, .writeFile (dir ++ ["index.html"]) text]
         ++ m.1,
       m.2.map (fun _ => doc)⟩

/-- Result of `get_user`: effect trace, heading-mismatch warnings (each as the
pair `(expected display name, trimmed heading inner HTML)` from `log::warn`),
and outcome. -/
structure UserOut where
  trace : List Eff
  warnings : List (String × String)
  result : Except Error (List (String × String))
  deriving DecidableEq

/-- The heading-validation step of `get_user`: for the first
`body > main > h1` match (if any), compare its trimmed `inner_html()` to the
expected display name and record a `log::warn` entry on mismatch. -/
def headingWarnings (doc : Html) (display_name : String) :
    List (String × String) :=
  match doc.mainH1s.head? with
  | none => []
  | some h1 =>
    let h1_text := h1.innerHtml
    if rustTrim h1_text ≠ display_name then [(display_name, rustTrim h1_text)]
    else []

/-- `get_user`: fetch and (optionally) snapshot the page; if a first
`body > main > h1` match exists and its trimmed `inner_html()` differs from
the expected display name, log a warning (non-fatal); then collect
`(url, title)` pairs from the `body > main > a` matches via `parse_a`. -/
def get_user (env : Env) (url : String) (snapshot_dir : Option (List String))
    (screen_name display_name : String) : UserOut :=
  match get_html env url snapshot_dir with
  | ⟨effs, .error e⟩ => ⟨effs, [], .error e⟩
  | ⟨effs, .ok doc⟩ =>
    ⟨effs, headingWarnings doc display_name,
     collectResults (doc.mainAnchors.map parse_a)⟩

/-- One CSV record, in the order written: `(screen_name, display_name, title, url)`. -/
abbrev Row := String × String × String × String

/-- Result of the walk: effect trace, warnings, the rows written to the CSV
sink before any failure, and the outcome. -/
structure WalkOut where
  trace : List Eff
  warnings : List (String × String)
  rows : List Row
  result : Except Error Unit
  deriving DecidableEq

/-- The row-writing step of `main`'s inner loop: on success one CSV row
`(screen_name, display_name, title, url)` per extracted `(url, title)` pair,
in document order; on failure the user's error aborts with no rows for this
user. -/
def userRows (u : UserOut) (screen_name display_name : String) : WalkOut :=
  match u.result with
  | .error e => ⟨u.trace, u.warnings, [], .error e⟩
  | .ok titles =>
    ⟨u.trace, u.warnings,
     titles.map (fun p => (screen_name, display_name, p.2, p.1)), .ok ()⟩

/-- One iteration of `main`'s user loop: resolve the raw index href against
the base URL (`Url` error aborts), derive the screen name, fetch the user's
page (snapshotting under `<snapshot_dir>/<screen_name>` when enabled), and
write that user's rows. -/
def walkUser (env : Env) (base_url : String) (snapshot_dir : Option (List String))
    (raw_url display_name : String) : WalkOut :=
  match env.join base_url raw_url with
  | none => ⟨[], [], [], .error .Url⟩
  | some user_url =>
    match screen_name_of raw_url with
    | .error e => ⟨[], [], [], .error e⟩
    | .ok screen_name =>
      userRows
        (get_user env user_url (snapshot_dir.map (fun d => d ++ [screen_name]))
          screen_name display_name)
        screen_name display_name

/-- Sequencing of two loop segments: if the first aborts, its error is the
run's error and the second never runs; otherwise effects, warnings and rows
accumulate in order. -/
def seqWalk (a b : WalkOut) : WalkOut :=
  match a.result with
  | .error e => ⟨a.trace, a.warnings, a.rows, .error e⟩
  | .ok _ =>
    ⟨a.trace ++ b.trace, a.warnings ++ b.warnings, a.rows ++ b.rows, b.result⟩

/-- The per-user loop of `main`: each `(raw_url, display_name)` index link in
document order, one fully processed before the next starts. -/
def walkUsers (env : Env) (base_url : String) (snapshot_dir : Option (List String)) :
    List (String × String) → WalkOut
  | [] => ⟨[], [], [], .ok ()⟩
  | (raw_url, display_name) :: rest =>
    seqWalk (walkUser env base_url snapshot_dir raw_url display_name)
      (walkUsers env base_url snapshot_dir rest)

/-- The whole run of `main` after CLI parsing: fetch + extract (+ optionally
snapshot) the index page, parse every top-level anchor into a `(url, label)`
pair (collecting errors before any user is visited), then run the per-user
loop. -/
def walk (env : Env) (base_url : String) (snapshot_dir : Option (List String)) :
    WalkOut :=
  match get_html env base_url snapshot_dir with
  | ⟨effs, .error e⟩ => ⟨effs, [], [], .error e⟩
  | ⟨effs, .ok index⟩ =>
    match collectResults (index.bodyAnchors.map parse_a) with
    | .error e => ⟨effs, [], [], .error e⟩
    | .ok users =>
      let w := walkUsers env base_url snapshot_dir users
      ⟨effs ++ w.trace, w.warnings, w.rows, w.result⟩

/-- The page GETs of a trace, in order (asset GETs and filesystem events
excluded). -/
def pageFetches (trace : List Eff) : List String :=
  trace.filterMap (fun e => match e with | .fetchPage u => some u | _ => none)

/-- The filesystem writes of a trace, in order. -/
def fsWrites (trace : List Eff) : List (List String × String) :=
  trace.filterMap (fun e => match e with | .writeFile p c => some (p, c) | _ => none)

/-! ## Helper lemmas -/

lemma splitChars_ne_nil (c : Char) (l : List Char) : splitChars c l ≠ [] := by
  induction l with
  | nil => simp [splitChars]
  | cons ch rest ih =>
    simp only [splitChars]
    split
    · simp
    · split
      · simp
      · simp

lemma rustSplit_ne_nil (c : Char) (s : String) : rustSplit c s ≠ [] := by
  unfold rustSplit
  simpa using splitChars_ne_nil c s.data

lemma screen_name_of_eq (raw : String) :
    screen_name_of raw = .ok (lastSegment (rustTrimEnd '/' raw)) := by
  unfold screen_name_of lastSegment
  rcases h : (rustSplit '/' (rustTrimEnd '/' raw)).getLast? with _ | s
  · exact absurd (List.getLast?_eq_none_iff.mp h)
      (rustSplit_ne_nil '/' (rustTrimEnd '/' raw))
  · simp [h]

/-- `get_stylesheet` when a stylesheet element with an `href` is present:
the last-segment extraction cannot fail, so the outcome is decided by URL
resolution alone. -/
lemma get_stylesheet_char (env : Env) (doc : Html) (b : String)
    (link : LinkElem) (h : String)
    (hhead : doc.stylesheetLinks.head? = some link)
    (hhref : link.href = some h) :
    get_stylesheet env doc b =
      (match env.join b h with
       | none => .error .Url
       | some u => .ok (some (u, lastSegment h))) := by
  unfold get_stylesheet
  rcases hl : (rustSplit '/' h).getLast? with _ | f
  · exact absurd (List.getLast?_eq_none_iff.mp hl) (rustSplit_ne_nil '/' h)
  · have hseg : lastSegment h = f := by unfold lastSegment; rw [hl]; rfl
    simp only [hhead, hhref, hl, hseg]

/-- `get_img` when a matched image with a `src` is present. -/
lemma get_img_char (env : Env) (doc : Html) (b : String)
    (sel : Html → List ImgElem) (img : ImgElem) (s : String)
    (hhead : (sel doc).head? = some img) (hsrc : img.src = some s) :
    get_img env doc b sel =
      (match env.join b s with
       | none => .error .Url
       | some u => .ok (some (u, lastSegment s))) := by
  unfold get_img
  rcases hl : (rustSplit '/' s).getLast? with _ | f
  · exact absurd (List.getLast?_eq_none_iff.mp hl) (rustSplit_ne_nil '/' s)
  · have hseg : lastSegment s = f := by unfold lastSegment; rw [hl]; rfl
    simp only [hhead, hsrc, hl, hseg]

/-! ## C1 -/

/-- C1: the claim states that for raw href `"/users/"` the screen-name
extraction fails with `InvalidHtml`.  It does not: `split('/')` on a string
always yields at least one piece, so `last()` is never `None` and the
`InvalidHtml "Missing screen name"` branch is unreachable; the extraction
returns `"users"`.  Moreover the consequence "every emitted screen_name is
non-empty" fails too: raw href `"/"` trims to `""` and yields the empty
screen name. -/
theorem c1_screen_name_claim_false :
    screen_name_of "/users/" = .ok "users" ∧ screen_name_of "/" = .ok "" := by
  constructor <;> decide

/-- C1 (amended): screen-name extraction always succeeds, returning the last
`/`-segment of the raw href after trimming trailing `/` characters (the empty
string when no non-empty segment remains); `"/users/alice/"` yields
`"alice"`, `"/users/alice"` yields `"alice"`, and `"/users/"` yields
`"users"`. -/
theorem c1_screen_name_amended :
    (∀ raw : String,
      screen_name_of raw = .ok (lastSegment (rustTrimEnd '/' raw))) ∧
    screen_name_of "/users/alice/" = .ok "alice" ∧
    screen_name_of "/users/alice" = .ok "alice" ∧
    screen_name_of "/users/" = .ok "users" ∧
    screen_name_of "/" = .ok "" := by
  refine ⟨screen_name_of_eq, ?_, ?_, ?_, ?_⟩ <;> decide

/-! ## C2 -/

/-- An environment whose URL join is total (concatenation); the fetching
components are irrelevant for the pure extraction functions. -/
def joinEnv : Env where
  fetchText := fun _ => none
  fetchBytes := fun _ => none
  parseDoc := fun _ => ⟨[], [], [], [], [], []⟩
  join := fun b r => some (b ++ r)

/-- C2: the claim states that `get_stylesheet` and `get_img` return
`InvalidHtml` when the attribute value has no final `/`-segment (e.g. is
empty).  They do not: `split('/').last()` is never `None`, so an empty
`href`/`src` yields the empty filename and the functions succeed. -/
theorem c2_filename_claim_false :
    get_stylesheet joinEnv ⟨[], [], [⟨some ""⟩], [], [], []⟩ "https://s" =
      .ok (some ("https://s", "")) ∧
    get_img joinEnv ⟨[], [], [], [⟨some ""⟩], [], []⟩ "https://s" BANNER_IMG_SEL =
      .ok (some ("https://s", "")) := by
  constructor <;> decide

/-- C2 (amended): the snapshot filename is the final `/`-delimited segment of
the raw attribute value, taken before URL resolution and unmodified
(`"/static/img/banner.png?x=1"` yields `"banner.png?x=1"`); the last-segment
extraction always succeeds (possibly with an empty filename), so when the
attribute is present `get_stylesheet`/`get_img` can fail only through URL
resolution (a `Url` error, not `InvalidHtml`). -/
theorem c2_filename_amended :
    (∀ (env : Env) (doc : Html) (b : String) (link : LinkElem) (h : String),
      doc.stylesheetLinks.head? = some link → link.href = some h →
      get_stylesheet env doc b =
        (match env.join b h with
         | none => .error .Url
         | some u => .ok (some (u, lastSegment h)))) ∧
    (∀ (env : Env) (doc : Html) (b : String) (sel : Html → List ImgElem)
      (img : ImgElem) (s : String),
      (sel doc).head? = some img → img.src = some s →
      get_img env doc b sel =
        (match env.join b s with
         | none => .error .Url
         | some u => .ok (some (u, lastSegment s)))) ∧
    lastSegment "/static/img/banner.png?x=1" = "banner.png?x=1" := by
  refine ⟨?_, ?_, by decide⟩
  · intro env doc b link h hhead hhref
    exact get_stylesheet_char env doc b link h hhead hhref
  · intro env doc b sel img s hhead hsrc
    exact get_img_char env doc b sel img s hhead hsrc

/-- Witness for C2 (amended) at a concrete stylesheet and image. -/
theorem c2_filename_amended_witness :
    get_stylesheet joinEnv ⟨[], [], [⟨some "/css/style.css"⟩], [], [], []⟩
      "https://s" = .ok (some ("https://s/css/style.css", "style.css")) ∧
    get_img joinEnv ⟨[], [], [], [], [⟨some "/static/img/banner.png?x=1"⟩], []⟩
      "https://s" PROFILE_IMG_SEL =
      .ok (some ("https://s/static/img/banner.png?x=1", "banner.png?x=1")) := by
  constructor
  · exact (c2_filename_amended.1 joinEnv
      ⟨[], [], [⟨some "/css/style.css"⟩], [], [], []⟩ "https://s"
      ⟨some "/css/style.css"⟩ "/css/style.css" rfl rfl).trans (by decide)
  · exact (c2_filename_amended.2.1 joinEnv
      ⟨[], [], [], [], [⟨some "/static/img/banner.png?x=1"⟩], []⟩ "https://s"
      PROFILE_IMG_SEL ⟨some "/static/img/banner.png?x=1"⟩
      "/static/img/banner.png?x=1" rfl rfl).trans (by decide)

/-! ## C5 -/

/-- C5: with no snapshot directory, `get_html` performs exactly the page GET
and nothing else — in particular zero filesystem writes — and succeeds with
the parsed document exactly when the fetch succeeds, regardless of which
assets the fetched HTML references. -/
theorem c5_snapshot_disabled_no_writes :
    ∀ (env : Env) (url : String),
      fsWrites (get_html env url none).trace = [] ∧
      get_html env url none =
        ⟨[Eff.fetchPage url],
         match env.fetchText url with
         | none => .error .HttpClient
         | some text => .ok (env.parseDoc text)⟩ := by
  intro env url
  unfold get_html
  rcases h : env.fetchText url with _ | text <;> simp [fsWrites]

/-! ## Trace lemmas -/

lemma pageFetches_append (a b : List Eff) :
    pageFetches (a ++ b) = pageFetches a ++ pageFetches b := by
  simp [pageFetches]

lemma pageFetches_saveOpt (env : Env) (dir : List String)
    (o : Option (String × String)) : pageFetches (saveOpt env dir o).1 = [] := by
  rcases o with _ | ⟨u, f⟩
  · rfl
  · unfold saveOpt save_file
    rcases h : env.fetchBytes u with _ | bytes <;> simp [h, pageFetches]

lemma pageFetches_effBind_nil {α β : Type} (m : List Eff × Except Error α)
    (f : α → List Eff × Except Error β) (hm : pageFetches m.1 = [])
    (hf : ∀ a, pageFetches (f a).1 = []) :
    pageFetches (effBind m f).1 = [] := by
  rcases m with ⟨t, r⟩
  rcases r with e | a
  · simpa using hm
  · simp only [effBind]
    rw [pageFetches_append]
    simp only at hm
    rw [hm, hf a]
    rfl

lemma pageFetches_snapshotAssets (env : Env) (doc : Html) (url : String)
    (dir : List String) : pageFetches (snapshotAssets env doc url dir).1 = [] := by
  unfold snapshotAssets
  refine pageFetches_effBind_nil _ _ rfl (fun styOpt => ?_)
  refine pageFetches_effBind_nil _ _ (pageFetches_saveOpt env dir styOpt)
    (fun _ => ?_)
  refine pageFetches_effBind_nil _ _ rfl (fun bOpt => ?_)
  refine pageFetches_effBind_nil _ _ (pageFetches_saveOpt env dir bOpt)
    (fun _ => ?_)
  refine pageFetches_effBind_nil _ _ rfl (fun pOpt => ?_)
  exact pageFetches_saveOpt env dir pOpt

lemma pageFetches_get_html (env : Env) (url : String)
    (d : Option (List String)) : pageFetches (get_html env url d).trace = [url] := by
  unfold get_html
  rcases hf : env.fetchText url with _ | text
  · simp [pageFetches]
  · rcases d with _ | dir
    · simp [pageFetches]
    · simp only []
      rw [pageFetches_append, pageFetches_snapshotAssets]
      simp [pageFetches]

/-- `get_user` expressed through the outcome of its `get_html` call. -/
lemma get_user_eq (env : Env) (url : String) (snap : Option (List String))
    (sn dn : String) :
    get_user env url snap sn dn =
      match (get_html env url snap).result with
      | .error e => ⟨(get_html env url snap).trace, [], .error e⟩
      | .ok doc =>
        ⟨(get_html env url snap).trace, headingWarnings doc dn,
         collectResults (doc.mainAnchors.map parse_a)⟩ := by
  unfold get_user
  rcases hg : get_html env url snap with ⟨effs, r⟩
  rcases r with e | doc <;> rfl

lemma get_user_trace (env : Env) (url : String) (snap : Option (List String))
    (sn dn : String) :
    (get_user env url snap sn dn).trace = (get_html env url snap).trace := by
  rw [get_user_eq]
  rcases (get_html env url snap).result with e | doc <;> rfl

/-! ## Concrete environments used by witnesses -/

/-- Profile page of the first fake user: two title links and a matching
heading. -/
def aliceDoc : Html :=
  ⟨[], [⟨some "/t1", "T1"⟩, ⟨some "/t2", "T2"⟩], [], [], [], [⟨"Alice"⟩]⟩

/-- Profile page of the second fake user: one title link and a heading
reading `Bob`. -/
def bobDoc : Html :=
  ⟨[], [⟨some "/t3", "T3"⟩], [], [], [], [⟨"Bob"⟩]⟩

/-- Fake index page with two top-level user anchors. -/
def indexDoc : Html :=
  ⟨[⟨some "/users/alice/", "Alice"⟩, ⟨some "/users/bob", "Bob"⟩],
   [], [], [], [], []⟩

/-- A fake site: an index page with two users whose profile pages carry two
and one title links respectively.  URL join is concatenation. -/
def siteEnv : Env where
  fetchText := fun u =>
    if u = "https://s" then some "I"
    else if u = "https://s/users/alice/" then some "A"
    else if u = "https://s/users/bob" then some "B"
    else none
  fetchBytes := fun _ => none
  parseDoc := fun t =>
    if t = "I" then indexDoc
    else if t = "A" then aliceDoc
    else if t = "B" then bobDoc
    else ⟨[], [], [], [], [], []⟩
  join := fun b r => some (b ++ r)

/-- A fake site with a single page whose heading carries nested markup
(`<b>Alice</b>`). -/
def markupEnv : Env where
  fetchText := fun u => if u = "https://m" then some "M" else none
  fetchBytes := fun _ => none
  parseDoc := fun t =>
    if t = "M" then ⟨[], [⟨some "/x", "X"⟩], [], [], [], [⟨"<b>Alice</b>"⟩]⟩
    else ⟨[], [], [], [], [], []⟩
  join := fun b r => some (b ++ r)

/-! ## C7 -/

/-- C7: a heading/display-name mismatch is never an error: whenever the page
fetch itself succeeded, `get_user`'s result is exactly the collected
`(url, title)` list of the main-content anchors — independent of the heading
and of the expected display name — and the mismatch surfaces only as the
`headingWarnings` log entries. -/
theorem c7_heading_mismatch_nonfatal (env : Env) (url : String)
    (snap : Option (List String)) (sn dn : String) (doc : Html)
    (hdoc : (get_html env url snap).result = .ok doc) :
    (get_user env url snap sn dn).result =
      collectResults (doc.mainAnchors.map parse_a) ∧
    (get_user env url snap sn dn).warnings = headingWarnings doc dn := by
  rw [get_user_eq, hdoc]
  exact ⟨rfl, rfl⟩

/-- Witness for C7: `<h1>Bob</h1>` against expected display name `"Alice"`
yields a warning but still returns the full title list. -/
theorem c7_heading_mismatch_nonfatal_witness :
    (get_user siteEnv "https://s/users/bob" none "bob" "Alice").result =
      .ok [("/t3", "T3")] ∧
    (get_user siteEnv "https://s/users/bob" none "bob" "Alice").warnings =
      [("Alice", "Bob")] := by
  have h := c7_heading_mismatch_nonfatal siteEnv "https://s/users/bob" none
    "bob" "Alice" bobDoc (by decide)
  exact ⟨h.1.trans (by decide), h.2.trans (by decide)⟩

/-! ## C8 -/

/-- `headingWarnings` when a heading is present. -/
lemma headingWarnings_head (doc : Html) (dn : String) (h1 : H1Elem)
    (hh1 : doc.mainH1s.head? = some h1) :
    headingWarnings doc dn =
      if rustTrim h1.innerHtml = dn then []
      else [(dn, rustTrim h1.innerHtml)] := by
  unfold headingWarnings
  rw [hh1]
  by_cases hne : rustTrim h1.innerHtml = dn <;> simp [hne]

/-- C8: the claim states the warning is emitted exactly when the heading's
trimmed DOM *text content* differs from the display name.  It is not: the
source compares the heading's raw `inner_html()`.  For `<h1><b>Alice</b></h1>`
with expected display name `"Alice"`, the trimmed text content equals the
display name, yet a warning is emitted (and, non-fatally, the title list is
still returned). -/
theorem c8_heading_text_claim_false :
    rustTrim (textContent "<b>Alice</b>") = "Alice" ∧
    (get_user markupEnv "https://m" none "alice" "Alice").warnings =
      [("Alice", "<b>Alice</b>")] ∧
    (get_user markupEnv "https://m" none "alice" "Alice").result =
      .ok [("/x", "X")] := by
  exact ⟨by decide, by decide, by decide⟩

/-- C8 (amended): when a heading is present, the warning is emitted exactly
when the heading's trimmed raw inner HTML markup (not its extracted text
content) differs from the expected display name, and the warning records that
trimmed markup. -/
theorem c8_heading_compare_amended (env : Env) (url : String)
    (snap : Option (List String)) (sn dn : String) (doc : Html) (h1 : H1Elem)
    (hdoc : (get_html env url snap).result = .ok doc)
    (hh1 : doc.mainH1s.head? = some h1) :
    ((get_user env url snap sn dn).warnings ≠ [] ↔
      rustTrim h1.innerHtml ≠ dn) ∧
    (rustTrim h1.innerHtml ≠ dn →
      (get_user env url snap sn dn).warnings = [(dn, rustTrim h1.innerHtml)]) := by
  have hw : (get_user env url snap sn dn).warnings = headingWarnings doc dn := by
    rw [get_user_eq, hdoc]
  rw [hw, headingWarnings_head doc dn h1 hh1]
  by_cases hne : rustTrim h1.innerHtml = dn <;> simp [hne]

/-- Witness for C8 (amended): `<h1>Bob</h1>` against `"Alice"`. -/
theorem c8_heading_compare_amended_witness :
    ((get_user siteEnv "https://s/users/bob" none "bob" "Alice").warnings ≠ []
      ↔ rustTrim "Bob" ≠ "Alice") ∧
    (get_user siteEnv "https://s/users/bob" none "bob" "Alice").warnings =
      [("Alice", rustTrim "Bob")] := by
  have h := c8_heading_compare_amended siteEnv "https://s/users/bob" none
    "bob" "Alice" bobDoc ⟨"Bob"⟩ (by decide) (by decide)
  exact ⟨h.1, h.2 (by decide)⟩

/-! ## Walk lemmas -/

lemma collectResults_parse_a_error (l : List AElem) (a : AElem)
    (ha : a ∈ l) (h : a.href = none) :
    collectResults (l.map parse_a) =
      .error (.InvalidHtml "Invalid href for link") := by
  induction l with
  | nil => cases ha
  | cons hd tl ih =>
    rcases List.mem_cons.mp ha with h1 | hmem
    · subst h1
      simp [collectResults, parse_a, h]
    · rcases hh : hd.href with _ | href
      · simp [collectResults, parse_a, hh]
      · simp [collectResults, parse_a, hh, ih hmem, Except.map]

lemma collectResults_length {α : Type} (es : List (Except Error α)) :
    ∀ vs, collectResults es = .ok vs → vs.length = es.length := by
  induction es with
  | nil =>
    intro vs h
    simp [collectResults] at h
    simp [← h]
  | cons e rest ih =>
    intro vs h
    rcases e with err | a
    · simp [collectResults] at h
    · rcases hr : collectResults rest with err | vs'
      · rw [collectResults, hr] at h
        simp [Except.map] at h
      · rw [collectResults, hr] at h
        simp [Except.map] at h
        rw [← h]
        simp [ih vs' hr]

/-- The absolute user-page URLs of a list of index links: `Url::join` of each
raw href against the base URL, failing if any join fails. -/
def resolveUrls (env : Env) (base : String) :
    List (String × String) → Option (List String)
  | [] => some []
  | u :: rest =>
    match env.join base u.1 with
    | none => none
    | some url => (resolveUrls env base rest).map (fun l => url :: l)

lemma resolveUrls_length (env : Env) (base : String) :
    ∀ (users : List (String × String)) (urls : List String),
      resolveUrls env base users = some urls → urls.length = users.length := by
  intro users
  induction users with
  | nil =>
    intro urls h
    simp [resolveUrls] at h
    simp [← h]
  | cons u rest ih =>
    intro urls h
    rw [resolveUrls] at h
    rcases hj : env.join base u.1 with _ | url
    · rw [hj] at h; cases h
    · rw [hj] at h
      rcases hr : resolveUrls env base rest with _ | urls'
      · rw [hr] at h; cases h
      · rw [hr] at h
        simp [Option.map] at h
        rw [← h]
        simp [ih urls' hr]

lemma seqWalk_ok (a b : WalkOut) :
    (seqWalk a b).result = .ok () ↔
      a.result = .ok () ∧ b.result = .ok () := by
  unfold seqWalk
  rcases ha : a.result with e | u
  · simp
  · cases u
    simp

lemma seqWalk_trace_of_ok (a b : WalkOut) (ha : a.result = .ok ()) :
    (seqWalk a b).trace = a.trace ++ b.trace := by
  unfold seqWalk
  rw [ha]

lemma userRows_trace (u : UserOut) (sn dn : String) :
    (userRows u sn dn).trace = u.trace := by
  unfold userRows
  rcases hr : u.result with e | titles <;> rfl

lemma walkUser_ok (env : Env) (base : String) (snap : Option (List String))
    (raw dn : String)
    (h : (walkUser env base snap raw dn).result = .ok ()) :
    ∃ user_url, env.join base raw = some user_url ∧
      pageFetches (walkUser env base snap raw dn).trace = [user_url] := by
  unfold walkUser at h ⊢
  cases hj : env.join base raw with
  | none =>
    rw [hj] at h
    simp at h
  | some user_url =>
    rw [hj] at h
    refine ⟨user_url, rfl, ?_⟩
    rw [screen_name_of_eq raw] at h ⊢
    rw [userRows_trace, get_user_trace, pageFetches_get_html]

/-- `walk` expressed through the outcomes of its index fetch and index-anchor
parsing. -/
lemma walk_eq (env : Env) (base : String) (snap : Option (List String)) :
    walk env base snap =
      match (get_html env base snap).result with
      | .error e => ⟨(get_html env base snap).trace, [], [], .error e⟩
      | .ok index =>
        match collectResults (index.bodyAnchors.map parse_a) with
        | .error e => ⟨(get_html env base snap).trace, [], [], .error e⟩
        | .ok users =>
          ⟨(get_html env base snap).trace
             ++ (walkUsers env base snap users).trace,
           (walkUsers env base snap users).warnings,
           (walkUsers env base snap users).rows,
           (walkUsers env base snap users).result⟩ := by
  unfold walk
  rcases hg : get_html env base snap with ⟨effs, r⟩
  rcases r with e | index
  · rfl
  · rcases hc : collectResults (index.bodyAnchors.map parse_a)
      with e | users <;> rfl

/-- Under a successful index fetch, a top-level anchor with a missing `href`
makes the whole walk abort with `InvalidHtml` before any user is processed. -/
lemma walk_index_anchor_error (env : Env) (base : String)
    (snap : Option (List String)) (index : Html)
    (hIdx : (get_html env base snap).result = .ok index)
    (hbad : ∃ a ∈ index.bodyAnchors, a.href = none) :
    walk env base snap =
      ⟨(get_html env base snap).trace, [], [],
       .error (.InvalidHtml "Invalid href for link")⟩ := by
  obtain ⟨a, ha, hhref⟩ := hbad
  simp only [walk_eq, hIdx,
    collectResults_parse_a_error index.bodyAnchors a ha hhref]

lemma walkUsers_ok (env : Env) (base : String) (snap : Option (List String)) :
    ∀ users : List (String × String),
      (walkUsers env base snap users).result = .ok () →
      ∃ urls, resolveUrls env base users = some urls ∧
        pageFetches (walkUsers env base snap users).trace = urls := by
  intro users
  induction users with
  | nil => exact fun _ => ⟨[], rfl, rfl⟩
  | cons hd rest ih =>
    obtain ⟨raw, dn⟩ := hd
    intro h
    rw [walkUsers] at h ⊢
    obtain ⟨ha, hb⟩ := (seqWalk_ok _ _).mp h
    obtain ⟨urls', hres', hpf'⟩ := ih hb
    obtain ⟨user_url, hj, hpfa⟩ := walkUser_ok env base snap raw dn ha
    refine ⟨user_url :: urls', ?_, ?_⟩
    · rw [resolveUrls, hj, hres']
      rfl
    · rw [seqWalk_trace_of_ok _ _ ha, pageFetches_append, hpfa, hpf']
      rfl

lemma userRows_error (u : UserOut) (sn dn : String) (e : Error)
    (h : u.result = .error e) :
    userRows u sn dn = ⟨u.trace, u.warnings, [], .error e⟩ := by
  unfold userRows
  rw [h]

lemma seqWalk_error_left (a b : WalkOut) (e : Error)
    (ha : a.result = .error e) :
    seqWalk a b = ⟨a.trace, a.warnings, a.rows, .error e⟩ := by
  unfold seqWalk
  rw [ha]

lemma seqWalk_assoc (a b c : WalkOut) :
    seqWalk a (seqWalk b c) = seqWalk (seqWalk a b) c := by
  rcases ha : a.result with e | u
  · simp [seqWalk, ha]
  · cases u
    rcases hb : b.result with e | u2
    · simp [seqWalk, ha, hb]
    · cases u2
      simp [seqWalk, ha, hb, List.append_assoc]

/-- The user loop over a concatenation is the sequencing of the two loops:
each user is fully processed before the next starts, and a failure in the
first segment prevents the second from running. -/
lemma walkUsers_append (env : Env) (base : String)
    (snap : Option (List String)) (l1 l2 : List (String × String)) :
    walkUsers env base snap (l1 ++ l2) =
      seqWalk (walkUsers env base snap l1) (walkUsers env base snap l2) := by
  induction l1 with
  | nil => rfl
  | cons x l1 ih =>
    obtain ⟨raw, dn⟩ := x
    simp only [List.cons_append, walkUsers, List.append_eq]
    rw [ih, seqWalk_assoc]

/-- `walkUser` once the URL join is known to succeed: the screen name is the
always-succeeding last-segment derivation, and the iteration reduces to
`userRows` of `get_user`. -/
lemma walkUser_eq_of_join (env : Env) (base : String)
    (snap : Option (List String)) (raw dn user_url : String)
    (hj : env.join base raw = some user_url) :
    walkUser env base snap raw dn =
      userRows
        (get_user env user_url
          (snap.map (fun d => d ++ [lastSegment (rustTrimEnd '/' raw)]))
          (lastSegment (rustTrimEnd '/' raw)) dn)
        (lastSegment (rustTrimEnd '/' raw)) dn := by
  unfold walkUser
  rw [hj, screen_name_of_eq raw]

/-! ## C3 -/

/-- A fake site whose index page's second top-level anchor has no `href`
attribute. -/
def badEnv : Env where
  fetchText := fun u => if u = "https://b" then some "I" else none
  fetchBytes := fun _ => none
  parseDoc := fun t =>
    if t = "I" then
      ⟨[⟨some "/users/alice/", "Alice"⟩, ⟨none, "Bob"⟩], [], [], [], [], []⟩
    else ⟨[], [], [], [], [], []⟩
  join := fun b r => some (b ++ r)

/-- A fake site with a well-formed index of two users whose second user's
profile page has a main-content anchor with no `href` attribute. -/
def bobBadDoc : Html := ⟨[], [⟨none, "T3"⟩], [], [], [], [⟨"Bob"⟩]⟩

/-- Environment for `bobBadDoc`: the index parses fine, the first user's page
is good, the second user's page has the broken profile anchor. -/
def badUserEnv : Env where
  fetchText := fun u =>
    if u = "https://bu" then some "I"
    else if u = "https://bu/users/alice/" then some "A"
    else if u = "https://bu/users/bob" then some "B"
    else none
  fetchBytes := fun _ => none
  parseDoc := fun t =>
    if t = "I" then indexDoc
    else if t = "A" then aliceDoc
    else if t = "B" then bobBadDoc
    else ⟨[], [], [], [], [], []⟩
  join := fun b r => some (b ++ r)

/-- C3: a missing `href` on a matched anchor is a hard error: `parse_a`
returns `InvalidHtml`; for an index anchor the whole walk aborts with exactly
that error and yields no rows at all; and for a profile (`body > main > a`)
anchor — reached with every earlier user processed successfully — the whole
walk likewise aborts with that error, the failing user and all later users
contribute no rows, and only the rows of the earlier users remain.  There is
no skip-and-continue in either case. -/
theorem c3_missing_href_aborts :
    (∀ el : AElem, el.href = none →
      parse_a el = .error (.InvalidHtml "Invalid href for link")) ∧
    (∀ (env : Env) (base : String) (snap : Option (List String)) (index : Html),
      (get_html env base snap).result = .ok index →
      (∃ a ∈ index.bodyAnchors, a.href = none) →
      (walk env base snap).result =
        .error (.InvalidHtml "Invalid href for link") ∧
      (walk env base snap).rows = []) ∧
    (∀ (env : Env) (base : String) (snap : Option (List String)) (index : Html)
       (pre rest : List (String × String)) (raw dn user_url sn : String)
       (doc : Html),
      (get_html env base snap).result = .ok index →
      collectResults (index.bodyAnchors.map parse_a) =
        .ok (pre ++ (raw, dn) :: rest) →
      (walkUsers env base snap pre).result = .ok () →
      env.join base raw = some user_url →
      screen_name_of raw = .ok sn →
      (get_html env user_url (snap.map (fun d => d ++ [sn]))).result = .ok doc →
      (∃ a ∈ doc.mainAnchors, a.href = none) →
      (walk env base snap).result =
        .error (.InvalidHtml "Invalid href for link") ∧
      (walk env base snap).rows = (walkUsers env base snap pre).rows) := by
  refine ⟨?_, ?_, ?_⟩
  · intro el h
    unfold parse_a
    rw [h]
  · intro env base snap index hIdx hbad
    rw [walk_index_anchor_error env base snap index hIdx hbad]
    exact ⟨rfl, rfl⟩
  · intro env base snap index pre rest raw dn user_url sn doc
      hIdx hUsers hPre hj hsn hdoc hbad
    rw [screen_name_of_eq raw] at hsn
    simp only [Except.ok.injEq] at hsn
    subst hsn
    have hue : (get_user env user_url
        (snap.map (fun d => d ++ [lastSegment (rustTrimEnd '/' raw)]))
        (lastSegment (rustTrimEnd '/' raw)) dn).result =
        .error (.InvalidHtml "Invalid href for link") := by
      obtain ⟨a, ha, hhref⟩ := hbad
      simp only [get_user_eq, hdoc]
      exact collectResults_parse_a_error doc.mainAnchors a ha hhref
    have hwu : walkUser env base snap raw dn =
        ⟨(get_user env user_url
            (snap.map (fun d => d ++ [lastSegment (rustTrimEnd '/' raw)]))
            (lastSegment (rustTrimEnd '/' raw)) dn).trace,
         (get_user env user_url
            (snap.map (fun d => d ++ [lastSegment (rustTrimEnd '/' raw)]))
            (lastSegment (rustTrimEnd '/' raw)) dn).warnings, [],
         .error (.InvalidHtml "Invalid href for link")⟩ := by
      rw [walkUser_eq_of_join env base snap raw dn user_url hj,
        userRows_error _ _ _ _ hue]
    have hU : (walkUser env base snap raw dn).result =
        .error (.InvalidHtml "Invalid href for link") := by rw [hwu]
    have hseq : walkUsers env base snap (pre ++ (raw, dn) :: rest) =
        seqWalk (walkUsers env base snap pre)
          (seqWalk (walkUser env base snap raw dn)
            (walkUsers env base snap rest)) := by
      rw [walkUsers_append]
      simp only [walkUsers]
    have hinner := seqWalk_error_left (walkUser env base snap raw dn)
      (walkUsers env base snap rest) _ hU
    have houter : seqWalk (walkUsers env base snap pre)
        (seqWalk (walkUser env base snap raw dn)
          (walkUsers env base snap rest)) =
        ⟨(walkUsers env base snap pre).trace
           ++ (walkUser env base snap raw dn).trace,
         (walkUsers env base snap pre).warnings
           ++ (walkUser env base snap raw dn).warnings,
         (walkUsers env base snap pre).rows,
         .error (.InvalidHtml "Invalid href for link")⟩ := by
      rw [hinner]
      unfold seqWalk
      rw [hPre]
      have hrows : (walkUser env base snap raw dn).rows = [] := by rw [hwu]
      simp [hrows]
    simp only [walk_eq, hIdx, hUsers]
    rw [hseq, houter]
    exact ⟨rfl, rfl⟩

/-- Witness for C3: a concrete index whose second anchor lacks `href` (no
user is visited), and a concrete site whose second user's profile page has an
anchor lacking `href` (the walk aborts, keeping only the first user's rows). -/
theorem c3_missing_href_aborts_witness :
    parse_a ⟨none, "Bob"⟩ = .error (.InvalidHtml "Invalid href for link") ∧
    ((walk badEnv "https://b" none).result =
       .error (.InvalidHtml "Invalid href for link") ∧
     (walk badEnv "https://b" none).rows = []) ∧
    (walk badUserEnv "https://bu" none).result =
      .error (.InvalidHtml "Invalid href for link") ∧
    (walk badUserEnv "https://bu" none).rows =
      [("alice", "Alice", "T1", "/t1"), ("alice", "Alice", "T2", "/t2")] := by
  refine ⟨c3_missing_href_aborts.1 ⟨none, "Bob"⟩ rfl, ?_, ?_⟩
  · exact c3_missing_href_aborts.2.1 badEnv "https://b" none
      ⟨[⟨some "/users/alice/", "Alice"⟩, ⟨none, "Bob"⟩], [], [], [], [], []⟩
      (by decide) ⟨⟨none, "Bob"⟩, by decide, rfl⟩
  · have h := c3_missing_href_aborts.2.2 badUserEnv "https://bu" none indexDoc
      [("/users/alice/", "Alice")] [] "/users/bob" "Bob"
      "https://bu/users/bob" "bob" bobBadDoc
      (by decide) (by decide) (by decide) (by decide) (by decide) (by decide)
      ⟨⟨none, "T3"⟩, by decide, rfl⟩
    exact ⟨h.1, h.2.trans (by decide)⟩

/-! ## C4 -/

/-- C4: absent failure, the walk issues exactly one user-page GET per
top-level index anchor, in document order, after the single index GET; and on
the fixed fake site (two users with two and one title links) it yields
exactly three rows, in document order, each row being
`(screen_name, display_name, title, url)`. -/
theorem c4_fetch_count_and_row_order :
    (∀ (env : Env) (base : String) (snap : Option (List String)) (index : Html)
       (users : List (String × String)),
      (get_html env base snap).result = .ok index →
      collectResults (index.bodyAnchors.map parse_a) = .ok users →
      (walk env base snap).result = .ok () →
      users.length = index.bodyAnchors.length ∧
      ∃ urls, resolveUrls env base users = some urls ∧
        urls.length = index.bodyAnchors.length ∧
        pageFetches (walk env base snap).trace = base :: urls) ∧
    walk siteEnv "https://s" none =
      ⟨[.fetchPage "https://s", .fetchPage "https://s/users/alice/",
        .fetchPage "https://s/users/bob"], [],
       [("alice", "Alice", "T1", "/t1"), ("alice", "Alice", "T2", "/t2"),
        ("bob", "Bob", "T3", "/t3")], .ok ()⟩ := by
  constructor
  · intro env base snap index users hIdx hUsers hOk
    simp only [walk_eq, hIdx, hUsers] at hOk ⊢
    have hlen : users.length = index.bodyAnchors.length := by
      have h := collectResults_length (index.bodyAnchors.map parse_a) users hUsers
      simpa using h
    obtain ⟨urls, hres, hpf⟩ := walkUsers_ok env base snap users hOk
    refine ⟨hlen, urls, hres, ?_, ?_⟩
    · rw [resolveUrls_length env base users urls hres, hlen]
    · show pageFetches ((get_html env base snap).trace
        ++ (walkUsers env base snap users).trace) = base :: urls
      rw [pageFetches_append, pageFetches_get_html, hpf]
      rfl
  · decide

/-- Witness for C4's general part on the concrete two-user site. -/
theorem c4_fetch_count_and_row_order_witness :
    ∃ urls, resolveUrls siteEnv "https://s"
        [("/users/alice/", "Alice"), ("/users/bob", "Bob")] = some urls ∧
      urls.length = 2 ∧
      pageFetches (walk siteEnv "https://s" none).trace = "https://s" :: urls := by
  have h := (c4_fetch_count_and_row_order.1 siteEnv "https://s" none indexDoc
    [("/users/alice/", "Alice"), ("/users/bob", "Bob")]
    (by decide) (by decide) (by decide))
  obtain ⟨hlen, urls, hres, hulen, hpf⟩ := h
  exact ⟨urls, hres, by rw [hulen]; rfl, hpf⟩

/-! ## C10 -/

/-- C10: every top-level index anchor is parsed before any user page is
fetched: if any index anchor fails to parse, the run performs zero user-page
GETs (the only page GET in the trace is the index's own) and emits zero rows,
regardless of the failing anchor's position. -/
theorem c10_parse_before_fetch (env : Env) (base : String)
    (snap : Option (List String)) (index : Html)
    (hIdx : (get_html env base snap).result = .ok index)
    (hbad : ∃ a ∈ index.bodyAnchors, a.href = none) :
    pageFetches (walk env base snap).trace = [base] ∧
    (walk env base snap).rows = [] := by
  rw [walk_index_anchor_error env base snap index hIdx hbad]
  exact ⟨pageFetches_get_html env base snap, rfl⟩

/-- Witness for C10: the failing anchor is the second of two, yet not even the
first user is fetched. -/
theorem c10_parse_before_fetch_witness :
    pageFetches (walk badEnv "https://b" none).trace = ["https://b"] ∧
    (walk badEnv "https://b" none).rows = [] :=
  c10_parse_before_fetch badEnv "https://b" none
    ⟨[⟨some "/users/alice/", "Alice"⟩, ⟨none, "Bob"⟩], [], [], [], [], []⟩
    (by decide) ⟨⟨none, "Bob"⟩, by decide, rfl⟩

/-! ## C6 -/

/-- A page with no stylesheet and no images. -/
def plainDoc : Html := ⟨[], [], [], [], [], []⟩

/-- A page referencing a stylesheet and both images. -/
def assetDoc : Html :=
  ⟨[], [], [⟨some "/a.css"⟩], [⟨some "/b.png"⟩], [⟨some "/c.png"⟩], []⟩

/-- A page whose stylesheet asset fails to download. -/
def failDoc : Html := ⟨[], [], [⟨some "/bad.css"⟩], [], [], []⟩

/-- A fake site for snapshot tests: `p1` has no assets, `p2` has all three
assets (all downloadable), `p3` has a stylesheet whose download fails. -/
def snapEnv : Env where
  fetchText := fun u =>
    if u = "https://p1" then some "P1"
    else if u = "https://p2" then some "P2"
    else if u = "https://p3" then some "P3"
    else none
  fetchBytes := fun u =>
    if u = "https://p2/a.css" then some "CSS"
    else if u = "https://p2/b.png" then some "BB"
    else if u = "https://p2/c.png" then some "PP"
    else none
  parseDoc := fun t =>
    if t = "P1" then plainDoc
    else if t = "P2" then assetDoc
    else if t = "P3" then failDoc
    else plainDoc
  join := fun b r => some (b ++ r)

/-- C6: with snapshotting enabled the operations happen in the fixed
sequential order — create directory, write the raw HTML verbatim to
`index.html`, stylesheet download, banner-image download, profile-image
download — a failing download aborts the whole snapshot with the underlying
error and nothing later runs, and a page with no stylesheet and no images
gets only `index.html` written into its directory. -/
theorem c6_snapshot_order_and_abort :
    (∀ (env : Env) (url : String) (dir : List String) (text : String),
      env.fetchText url = some text →
      (env.parseDoc text).stylesheetLinks = [] →
      (env.parseDoc text).bannerImgs = [] →
      (env.parseDoc text).profileImgs = [] →
      get_html env url (some dir) =
        ⟨[.fetchPage url, .createDir dir,
          .writeFile (dir ++ ["index.html"]) text],
         .ok (env.parseDoc text)⟩) ∧
    (∀ (env : Env) (url : String) (dir : List String) (text su sf : String),
      env.fetchText url = some text →
      get_stylesheet env (env.parseDoc text) url = .ok (some (su, sf)) →
      env.fetchBytes su = none →
      get_html env url (some dir) =
        ⟨[.fetchPage url, .createDir dir,
          .writeFile (dir ++ ["index.html"]) text, .fetchAsset su],
         .error .HttpClient⟩) ∧
    (∀ (env : Env) (url : String) (dir : List String)
       (text su sf sb bu bf : String),
      env.fetchText url = some text →
      get_stylesheet env (env.parseDoc text) url = .ok (some (su, sf)) →
      env.fetchBytes su = some sb →
      get_img env (env.parseDoc text) url BANNER_IMG_SEL = .ok (some (bu, bf)) →
      env.fetchBytes bu = none →
      get_html env url (some dir) =
        ⟨[.fetchPage url, .createDir dir,
          .writeFile (dir ++ ["index.html"]) text, .fetchAsset su,
          .writeFile (dir ++ [sf]) sb, .fetchAsset bu],
         .error .HttpClient⟩) ∧
    (∀ (env : Env) (url : String) (dir : List String)
       (text su sf sb bu bf bb pu pf : String),
      env.fetchText url = some text →
      get_stylesheet env (env.parseDoc text) url = .ok (some (su, sf)) →
      env.fetchBytes su = some sb →
      get_img env (env.parseDoc text) url BANNER_IMG_SEL = .ok (some (bu, bf)) →
      env.fetchBytes bu = some bb →
      get_img env (env.parseDoc text) url PROFILE_IMG_SEL = .ok (some (pu, pf)) →
      env.fetchBytes pu = none →
      get_html env url (some dir) =
        ⟨[.fetchPage url, .createDir dir,
          .writeFile (dir ++ ["index.html"]) text, .fetchAsset su,
          .writeFile (dir ++ [sf]) sb, .fetchAsset bu,
          .writeFile (dir ++ [bf]) bb, .fetchAsset pu],
         .error .HttpClient⟩) ∧
    (∀ (env : Env) (url : String) (dir : List String)
       (text su sf sb bu bf bb pu pf pb : String),
      env.fetchText url = some text →
      get_stylesheet env (env.parseDoc text) url = .ok (some (su, sf)) →
      env.fetchBytes su = some sb →
      get_img env (env.parseDoc text) url BANNER_IMG_SEL = .ok (some (bu, bf)) →
      env.fetchBytes bu = some bb →
      get_img env (env.parseDoc text) url PROFILE_IMG_SEL = .ok (some (pu, pf)) →
      env.fetchBytes pu = some pb →
      get_html env url (some dir) =
        ⟨[.fetchPage url, .createDir dir,
          .writeFile (dir ++ ["index.html"]) text, .fetchAsset su,
          .writeFile (dir ++ [sf]) sb, .fetchAsset bu,
          .writeFile (dir ++ [bf]) bb, .fetchAsset pu,
          .writeFile (dir ++ [pf]) pb],
         .ok (env.parseDoc text)⟩) := by
  refine ⟨?_, ?_, ?_, ?_, ?_⟩
  · intro env url dir text hf hs hb hp
    simp [get_html, hf, snapshotAssets, liftExcept, effBind, saveOpt,
      get_stylesheet, get_img, BANNER_IMG_SEL, PROFILE_IMG_SEL, hs, hb, hp,
      Except.map]
  · intro env url dir text su sf hf hs hsb
    simp [get_html, hf, snapshotAssets, liftExcept, effBind, saveOpt,
      save_file, hs, hsb, Except.map]
  · intro env url dir text su sf sb bu bf hf hs hsb hbimg hbb
    simp [get_html, hf, snapshotAssets, liftExcept, effBind, saveOpt,
      save_file, hs, hsb, hbimg, hbb, Except.map]
  · intro env url dir text su sf sb bu bf bb pu pf hf hs hsb hbimg hbb hpimg hpb
    simp [get_html, hf, snapshotAssets, liftExcept, effBind, saveOpt,
      save_file, hs, hsb, hbimg, hbb, hpimg, hpb, Except.map]
  · intro env url dir text su sf sb bu bf bb pu pf pb hf hs hsb hbimg hbb
      hpimg hpb
    simp [get_html, hf, snapshotAssets, liftExcept, effBind, saveOpt,
      save_file, hs, hsb, hbimg, hbb, hpimg, hpb, Except.map]

/-- Witness for C6 on the concrete snapshot site: a page with no assets gets
only `index.html`; a full page gets the nine operations in order; a failing
stylesheet download aborts with `HttpClient` before the images. -/
theorem c6_snapshot_order_and_abort_witness :
    get_html snapEnv "https://p1" (some ["d"]) =
      ⟨[.fetchPage "https://p1", .createDir ["d"],
        .writeFile ["d", "index.html"] "P1"], .ok plainDoc⟩ ∧
    get_html snapEnv "https://p2" (some ["d"]) =
      ⟨[.fetchPage "https://p2", .createDir ["d"],
        .writeFile ["d", "index.html"] "P2", .fetchAsset "https://p2/a.css",
        .writeFile ["d", "a.css"] "CSS", .fetchAsset "https://p2/b.png",
        .writeFile ["d", "b.png"] "BB", .fetchAsset "https://p2/c.png",
        .writeFile ["d", "c.png"] "PP"], .ok assetDoc⟩ ∧
    get_html snapEnv "https://p3" (some ["d"]) =
      ⟨[.fetchPage "https://p3", .createDir ["d"],
        .writeFile ["d", "index.html"] "P3", .fetchAsset "https://p3/bad.css"],
       .error .HttpClient⟩ := by
  refine ⟨?_, ?_, ?_⟩
  · exact (c6_snapshot_order_and_abort.1 snapEnv "https://p1" ["d"] "P1"
      (by decide) (by decide) (by decide) (by decide)).trans (by decide)
  · exact (c6_snapshot_order_and_abort.2.2.2.2 snapEnv "https://p2" ["d"] "P2"
      "https://p2/a.css" "a.css" "CSS" "https://p2/b.png" "b.png" "BB"
      "https://p2/c.png" "c.png" "PP" (by decide) (by decide) (by decide)
      (by decide) (by decide) (by decide) (by decide)).trans (by decide)
  · exact (c6_snapshot_order_and_abort.2.1 snapEnv "https://p3" ["d"] "P3"
      "https://p3/bad.css" "bad.css" (by decide) (by decide)
      (by decide)).trans (by decide)

/-! ## C9 -/

lemma mem_saveOpt_fetchAsset (env : Env) (dir : List String)
    (o : Option (String × String)) (u : String)
    (h : Eff.fetchAsset u ∈ (saveOpt env dir o).1) :
    ∃ f, o = some (u, f) := by
  rcases o with _ | ⟨su, sf⟩
  · simp [saveOpt] at h
  · simp only [saveOpt, save_file] at h
    rcases hb : env.fetchBytes su with _ | bytes
    · rw [hb] at h
      simp at h
      exact ⟨sf, by rw [h]⟩
    · rw [hb] at h
      simp at h
      exact ⟨sf, by rw [h]⟩

lemma mem_effBind {α β : Type} (m : List Eff × Except Error α)
    (f : α → List Eff × Except Error β) (x : Eff)
    (h : x ∈ (effBind m f).1) :
    x ∈ m.1 ∨ ∃ a, m.2 = .ok a ∧ x ∈ (f a).1 := by
  rcases m with ⟨t, r⟩
  rcases r with e | a
  · simp only [effBind] at h
    exact Or.inl h
  · simp only [effBind] at h
    rcases List.mem_append.mp h with h1 | h2
    · exact Or.inl h1
    · exact Or.inr ⟨a, rfl, h2⟩

lemma get_stylesheet_ok_some (env : Env) (doc : Html) (b su sf : String)
    (h : get_stylesheet env doc b = .ok (some (su, sf))) :
    ∃ link href, doc.stylesheetLinks.head? = some link ∧
      link.href = some href ∧ env.join b href = some su := by
  rcases hh : doc.stylesheetLinks.head? with _ | link
  · unfold get_stylesheet at h
    rw [hh] at h
    simp at h
  · rcases hl : link.href with _ | href
    · unfold get_stylesheet at h
      rw [hh] at h
      simp [hl] at h
    · have hchar := get_stylesheet_char env doc b link href hh hl
      rw [hchar] at h
      rcases hj : env.join b href with _ | uu
      · rw [hj] at h
        simp at h
      · rw [hj] at h
        simp at h
        exact ⟨link, href, rfl, hl, by rw [hj, h.1]⟩

lemma get_img_ok_some (env : Env) (doc : Html) (b : String)
    (sel : Html → List ImgElem) (su sf : String)
    (h : get_img env doc b sel = .ok (some (su, sf))) :
    ∃ img src, (sel doc).head? = some img ∧
      img.src = some src ∧ env.join b src = some su := by
  rcases hh : (sel doc).head? with _ | img
  · unfold get_img at h
    rw [hh] at h
    simp at h
  · rcases hl : img.src with _ | src
    · unfold get_img at h
      rw [hh] at h
      simp [hl] at h
    · have hchar := get_img_char env doc b sel img src hh hl
      rw [hchar] at h
      rcases hj : env.join b src with _ | uu
      · rw [hj] at h
        simp at h
      · rw [hj] at h
        simp at h
        exact ⟨img, src, rfl, hl, by rw [hj, h.1]⟩

lemma mem_snapshotAssets_fetchAsset (env : Env) (doc : Html) (url : String)
    (dir : List String) (u : String)
    (h : Eff.fetchAsset u ∈ (snapshotAssets env doc url dir).1) :
    ∃ raw, env.join url raw = some u ∧
      ((∃ link, doc.stylesheetLinks.head? = some link ∧
          link.href = some raw) ∨
       (∃ img, doc.bannerImgs.head? = some img ∧ img.src = some raw) ∨
       (∃ img, doc.profileImgs.head? = some img ∧ img.src = some raw)) := by
  unfold snapshotAssets at h
  rcases mem_effBind _ _ _ h with h0 | ⟨styOpt, hsty, h⟩
  · simp [liftExcept] at h0
  · simp only [liftExcept] at hsty
    rcases mem_effBind _ _ _ h with h1 | ⟨_, _, h⟩
    · obtain ⟨f, hf⟩ := mem_saveOpt_fetchAsset env dir styOpt u h1
      subst hf
      obtain ⟨link, href, hhead, hhref, hjoin⟩ :=
        get_stylesheet_ok_some env doc url u f hsty
      exact ⟨href, hjoin, Or.inl ⟨link, hhead, hhref⟩⟩
    · rcases mem_effBind _ _ _ h with h2 | ⟨bOpt, hbimg, h⟩
      · simp [liftExcept] at h2
      · simp only [liftExcept] at hbimg
        rcases mem_effBind _ _ _ h with h3 | ⟨_, _, h⟩
        · obtain ⟨f, hf⟩ := mem_saveOpt_fetchAsset env dir bOpt u h3
          subst hf
          obtain ⟨img, src, hhead, hsrc, hjoin⟩ :=
            get_img_ok_some env doc url BANNER_IMG_SEL u f hbimg
          exact ⟨src, hjoin, Or.inr (Or.inl ⟨img, hhead, hsrc⟩)⟩
        · rcases mem_effBind _ _ _ h with h4 | ⟨pOpt, hpimg, h⟩
          · simp [liftExcept] at h4
          · simp only [liftExcept] at hpimg
            obtain ⟨f, hf⟩ := mem_saveOpt_fetchAsset env dir pOpt u h
            subst hf
            obtain ⟨img, src, hhead, hsrc, hjoin⟩ :=
              get_img_ok_some env doc url PROFILE_IMG_SEL u f hpimg
            exact ⟨src, hjoin, Or.inr (Or.inr ⟨img, hhead, hsrc⟩)⟩

/-- C9: every asset GET issued while snapshotting a page is the resolution of
that asset's raw attribute value against the snapshotted page's own URL — the
`url` argument of `get_html` — and the raw value comes from the page's own
stylesheet link, banner image, or profile image. -/
theorem c9_assets_resolved_against_page_url (env : Env) (url : String)
    (dir : List String) (u : String)
    (hmem : Eff.fetchAsset u ∈ (get_html env url (some dir)).trace) :
    ∃ text raw, env.fetchText url = some text ∧ env.join url raw = some u ∧
      ((∃ link, (env.parseDoc text).stylesheetLinks.head? = some link ∧
          link.href = some raw) ∨
       (∃ img, (env.parseDoc text).bannerImgs.head? = some img ∧
          img.src = some raw) ∨
       (∃ img, (env.parseDoc text).profileImgs.head? = some img ∧
          img.src = some raw)) := by
  unfold get_html at hmem
  rcases hf : env.fetchText url with _ | text
  · rw [hf] at hmem
    simp at hmem
  · rw [hf] at hmem
    simp only [] at hmem
    rcases List.mem_append.mp hmem with h1 | h2
    · simp at h1
    · obtain ⟨raw, hjoin, hloc⟩ :=
        mem_snapshotAssets_fetchAsset env (env.parseDoc text) url dir u h2
      exact ⟨text, raw, rfl, hjoin, hloc⟩

/-- Witness for C9: the stylesheet GET of the concrete snapshot site's `p2`
page resolves `/a.css` against `https://p2`. -/
theorem c9_assets_resolved_against_page_url_witness :
    ∃ text raw, snapEnv.fetchText "https://p2" = some text ∧
      snapEnv.join "https://p2" raw = some "https://p2/a.css" ∧
      ((∃ link, (snapEnv.parseDoc text).stylesheetLinks.head? = some link ∧
          link.href = some raw) ∨
       (∃ img, (snapEnv.parseDoc text).bannerImgs.head? = some img ∧
          img.src = some raw) ∨
       (∃ img, (snapEnv.parseDoc text).profileImgs.head? = some img ∧
          img.src = some raw)) :=
  c9_assets_resolved_against_page_url snapEnv "https://p2" ["d"]
    "https://p2/a.css" (by decide)

end Scrape
